import Mathlib

/-!
Verification of the knowledge-store core of `proj_facts_mcp`.

The TypeScript sources (`src/utils/facts-manager.ts`, `src/tools/*.ts`) are
shallowly embedded below: each `def` mirrors one source function; JavaScript
string primitives (`toLowerCase`, `includes`, `split(/\s+/)`, `trim`,
`startsWith`, first-occurrence `replace`) are modelled by explicit helpers on
`String`/`List Char`; floating-point relevance scores are modelled over `ℚ`
(all weights are decimal fractions and every claim is insensitive to the
float/rational distinction); the injected `IFileManager` becomes a record of
fallible functions returning `Except String _`, and `try`/`catch` blocks
become explicit `match`es on those `Except` values.
-/

namespace ProjFacts

/-! ## JavaScript string primitives -/

/-- JS `s.toLowerCase()` restricted to ASCII case mapping (the document and
query material handled by this repository is ASCII plus CJK text, on which
JS and ASCII lowering agree). -/
def lowerStr (s : String) : String := ⟨s.data.map Char.toLower⟩

/-- Locate the first occurrence of `pat` in a character list, returning the
text before it and the text after it (the match itself removed).  This models
the non-greedy regex groups and first-occurrence `String.replace` used by the
source. -/
def breakOnFirst (pat : List Char) : List Char → Option (List Char × List Char)
  | [] => if pat.isEmpty then some ([], []) else none
  | c :: rest =>
    if pat.isPrefixOf (c :: rest) then some ([], (c :: rest).drop pat.length)
    else
      match breakOnFirst pat rest with
      | some (pre, post) => some (c :: pre, post)
      | none => none

/-- JS `s.includes(sub)` : substring containment. -/
def includesB (s sub : String) : Bool := (breakOnFirst sub.data s.data).isSome

/-- JS `s.startsWith(p)`. -/
def startsWithB (s p : String) : Bool := p.data.isPrefixOf s.data

/-- JS `s.endsWith(p)`. -/
def endsWithB (s p : String) : Bool := p.data.isSuffixOf s.data

/-- JS `s.trim()`. -/
def trimB (s : String) : String :=
  ⟨((s.data.dropWhile Char.isWhitespace).reverse.dropWhile Char.isWhitespace).reverse⟩

/-- Splitting worker for JS `s.split(sep)` with a one-character separator
(every split separator in the source is one character). -/
def splitOnCharAux (sep : Char) : List Char → List Char → List (List Char)
  | [], acc => [acc.reverse]
  | c :: rest, acc =>
    if c = sep then acc.reverse :: splitOnCharAux sep rest []
    else splitOnCharAux sep rest (c :: acc)

/-- JS `s.split(sep)` for a one-character separator (empty pieces kept). -/
def jsSplitOn (s : String) (sep : Char) : List String :=
  (splitOnCharAux sep s.data []).map List.asString

/-- Splitting worker for JS `s.split(/\s+/)`: a maximal run of whitespace is
one separator, and leading/trailing separators contribute empty tokens,
exactly as in JavaScript (`" a".split(/\s+/) = ["", "a"]`).  The boolean
records whether the scanner is inside a whitespace run. -/
def jsSplitWsAux : List Char → List Char → Bool → List (List Char)
  | [], acc, _ => [acc.reverse]
  | c :: rest, acc, inRun =>
    if c.isWhitespace then
      if inRun then jsSplitWsAux rest acc true
      else acc.reverse :: jsSplitWsAux rest [] true
    else jsSplitWsAux rest (c :: acc) false

/-- JS `s.split(/\s+/)`. -/
def jsSplitWs (s : String) : List String := (jsSplitWsAux s.data [] false).map List.asString

/-- JS `s.replace(pat, "")` for a plain-string pattern: remove the first
occurrence only. -/
def removeFirst (s pat : String) : String :=
  match breakOnFirst pat.data s.data with
  | some (pre, post) => (pre ++ post).asString
  | none => s

/-- JS code-unit string comparison `a < b` (all material here is in the basic
multilingual plane, where UTF-16 code-unit order and code-point order agree). -/
def charsLt : List Char → List Char → Bool
  | [], [] => false
  | [], _ :: _ => true
  | _ :: _, [] => false
  | a :: as, b :: bs =>
    if a.val < b.val then true else if b.val < a.val then false else charsLt as bs

def jsStrLt (a b : String) : Bool := charsLt a.data b.data

/-- `path.join(a, b)` for the well-formed relative segments used by the
source (no normalisation is ever exercised). -/
def pathJoin (a b : String) : String := a ++ "/" ++ b

/-- `path.basename(p, ".md")`. -/
def basenameNoMd (p : String) : String :=
  let base := (jsSplitOn p '/').getLastD p
  if endsWithB base ".md" then ⟨base.data.take (base.data.length - 3)⟩ else base

/-! ## Storage layout (a `FactsManager` constructed with `projectPath = "/p"`) -/

def cwd : String := "/p"
def localDocsPath : String := pathJoin (pathJoin cwd ".bkproj") "facts"
def userCommandPath : String := pathJoin localDocsPath "USER_COMMAND.md"
def solutionsPath : String := pathJoin localDocsPath "solutions"
def docsDirPath : String := pathJoin localDocsPath "docs"
def knowledgePath : String := pathJoin localDocsPath "KNOWLEDGE.md"

/-! ## Data model (`core-interfaces.ts`) -/

structure SearchOptions where
  maxResults : Option Nat := none
  categories : Option (List String) := none
  minRelevance : Option ℚ := none
deriving DecidableEq, Repr

structure FactDocument where
  path : String
  title : String
  category : String
  relevanceScore : ℚ
  summary : String
  lastUpdated : String
  relatedDocs : List String := []
deriving DecidableEq, Repr

structure InsightRecord where
  task : String
  solution : String
  reasoning : String
  evidence : List String
  category : String
  confidence : String
deriving DecidableEq, Repr

structure Command where
  command : String
  description : String
  lastUpdated : String
  relatedDocs : List String
deriving DecidableEq, Repr

/-- `ProjectContext`.  The TS declaration types `categories` as `string[]`,
but at runtime `categories.add(metadata.category)` can insert `undefined`
when a document carries a delimiter block with no recognised fields; the
field is therefore modelled as `List (Option String)`. -/
structure ProjectContext where
  currentPath : String
  hasLocalDocs : Bool
  factCount : Nat
  categories : List (Option String)
  lastActivity : String
deriving DecidableEq, Repr

/-- The injected `IFileManager`, as a record of fallible storage operations
(`Except.error` models a thrown exception). -/
structure FM where
  dirExists : String → Except String Bool
  readFile : String → Except String String
  writeFile : String → String → Except String Unit
  listFiles : String → Except String (List String)
  createDirectory : String → Except String Unit

/-- A performed `writeFile` call. -/
structure WriteOp where
  path : String
  content : String
deriving DecidableEq, Repr

/-! ## Metadata parser (`parseInsightMetadata`) -/

/-- The capture group of the anchored regex `^---\n([\s\S]*?)\n---`: present
only when the text starts with the delimiter line, and then the (non-greedy)
shortest prefix closed by the next `\n---`. -/
def frontMatterBlock (content : String) : Option String :=
  if startsWithB content "---\n" then
    match breakOnFirst "\n---".data (content.data.drop 4) with
    | some (pre, _) => some pre.asString
    | none => none
  else none

/-- One header line: split on `:`; skip when the raw key is empty (falsy) or
there is no colon; otherwise record the trimmed key with the colon-rejoined,
trimmed value.  The metadata object is an insertion-ordered association list;
duplicate keys shadow earlier ones (JS object assignment). -/
def parseMetaLine (metadata : List (String × String)) (line : String) :
    List (String × String) :=
  match jsSplitOn line ':' with
  | [] => metadata
  | [_] => metadata
  | key :: valueParts =>
    if key = "" then metadata
    else metadata ++ [(trimB key, trimB (String.intercalate ":" valueParts))]

/-- `parseInsightMetadata`: no front-matter block means the fixed default
triple; otherwise the line-by-line `key: value` scan. -/
def parseInsightMetadata (content : String) : List (String × String) :=
  match frontMatterBlock content with
  | none => [("category", "technical"), ("created_date", ""), ("title", "")]
  | some block => (jsSplitOn block '\n').foldl parseMetaLine []

/-- JS property read `metadata[key]` (last assignment wins). -/
def mdGet (metadata : List (String × String)) (key : String) : Option String :=
  metadata.reverse.lookup key

/-! ## Relevance scorer (`calculateRelevance`) -/

/-- Signal 1 — exact phrase match in title (weight 0.4).  `metadata.title` is
absent (`undefined`) or a string; `?.` makes an absent title contribute
nothing. -/
def titleSignal (queryLower : String) (metadata : List (String × String)) : ℚ :=
  match mdGet metadata "title" with
  | some t => if includesB (lowerStr t) queryLower then 2/5 else 0
  | none => 0

/-- Signal 2 — word matches in content (weight 0.4): bidirectional substring
containment between whitespace tokens of the query and of the full document
text. -/
def wordSignal (queryLower contentLower : String) : ℚ :=
  let queryWords := jsSplitWs queryLower
  let contentWords := jsSplitWs contentLower
  let matchingWords := queryWords.filter fun word =>
    contentWords.any fun contentWord =>
      includesB contentWord word || includesB word contentWord
  ((matchingWords.length : ℚ) / (queryWords.length : ℚ)) * (2/5)

/-- Signal 3 — category mention (weight 0.1); an absent or empty category is
falsy and contributes nothing. -/
def categorySignal (queryLower : String) (metadata : List (String × String)) : ℚ :=
  match mdGet metadata "category" with
  | some c => if c ≠ "" ∧ includesB queryLower c then 1/10 else 0
  | none => 0

/-- Signal 4 — tag matches (weight 0.1).  Values produced by
`parseInsightMetadata` are always strings, so the `Array.isArray` branch is
dead and a (truthy) `tags` value is wrapped into a one-element list. -/
def tagSignal (queryLower : String) (metadata : List (String × String)) : ℚ :=
  match mdGet metadata "tags" with
  | some t =>
    if t = "" then 0
    else
      let tags := [t]
      let tagMatches := tags.filter fun tag =>
        includesB queryLower (lowerStr tag) || includesB (lowerStr tag) queryLower
      ((tagMatches.length : ℚ) / (max (tags.length : ℚ) 1)) * (1/10)
  | none => 0

/-- `calculateRelevance(query, content, metadata)`: the four additive signals,
capped at 1.0. -/
def calculateRelevance (query content : String) (metadata : List (String × String)) : ℚ :=
  let queryLower := lowerStr query
  let contentLower := lowerStr content
  min (titleSignal queryLower metadata + wordSignal queryLower contentLower +
    categorySignal queryLower metadata + tagSignal queryLower metadata) 1

/-! ## Summary extraction (`extractSummary`) -/

/-- The anchored first-occurrence replace `content.replace` of the regex
`^---[\s\S]*?---\n` by the empty string: when the text starts with `---`,
drop everything through the first later `---` followed by a newline. -/
def stripFrontMatter (content : String) : String :=
  if startsWithB content "---" then
    match breakOnFirst "---\n".data (content.data.drop 3) with
    | some (_, post) => post.asString
    | none => content
  else content

/-- `extractSummary`: first trimmed line after the front matter of length
greater than 50 not starting with `#`, truncated to 200 characters. -/
def extractSummary (content : String) : String :=
  let withoutFrontMatter := stripFrontMatter content
  let lines := jsSplitOn withoutFrontMatter '\n'
  match lines.find? (fun line =>
      let trimmed := trimB line
      decide (50 < trimmed.data.length) && !(startsWithB trimmed "#")) with
  | some line =>
    let trimmed := trimB line
    (trimmed.data.take 200).asString ++ (if 200 < trimmed.data.length then "..." else "")
  | none => "No summary available"

/-! ## Insight writer (`generateInsightFilename`, `formatInsightContent`) -/

/-- The character class `[a-zA-Z0-9一-龥]` of the sanitising regex in
`generateInsightFilename`. -/
def keepChar (c : Char) : Bool :=
  (65 ≤ c.val && c.val ≤ 90) || (97 ≤ c.val && c.val ≤ 122) ||
  (48 ≤ c.val && c.val ≤ 57) || (0x4e00 ≤ c.val && c.val ≤ 0x9fa5)

/-- `generateInsightFilename`: strip every character outside the class, keep
the first 30, join task and solution parts with an underscore. -/
def generateInsightFilename (insight : InsightRecord) : String :=
  let taskPart := ((insight.task.data.filter keepChar).take 30).asString
  let solutionPart := ((insight.solution.data.filter keepChar).take 30).asString
  taskPart ++ "_" ++ solutionPart ++ ".md"

/-- `getConfidenceDescription`. -/
def getConfidenceDescription (confidence : String) : String :=
  if confidence = "high" then "经过充分验证的可靠方案"
  else if confidence = "medium" then "基本可行但需要根据情况调整的方案"
  else if confidence = "low" then "实验性方案，需要进一步验证"
  else "未评估"

/-- `formatInsightContent`.  The ambient clock `new Date().toISOString()` is
passed in as `nowISO`; `timestamp` is its date part (`split('T')[0]`). -/
def formatInsightContent (insight : InsightRecord) (nowISO : String) : String :=
  let timestamp := (jsSplitOn nowISO 'T').headD ""
  let evidenceBlock :=
    String.intercalate "\n" (insight.evidence.map (fun evidence => "- " ++ evidence))
  "---\ncategory: " ++ insight.category ++
  "\nconfidence: " ++ insight.confidence ++
  "\ncreated_date: " ++ timestamp ++
  "\ntags: [" ++ insight.category ++ "]\nrelated_files: []\n---\n\n# " ++
  insight.task ++ " - 解决方案洞察\n\n## 🎯 问题描述\n" ++
  insight.task ++ "\n\n## 💡 解决方案\n" ++
  insight.solution ++ "\n\n## 🤔 解决思路 (Reasoning)\n" ++
  insight.reasoning ++ "\n\n## 📋 支持证据\n" ++
  (if evidenceBlock = "" then "- 暂无额外证据" else evidenceBlock) ++
  "\n\n## 📊 验证结果\n*待补充具体的验证结果和效果指标*\n\n## ⚠️ 注意事项\n- **置信度**: " ++
  insight.confidence ++
  "\n- **适用场景**: 需要根据具体情况评估适用性\n- **风险点**: *待补充实施过程中需要注意的风险*\n\n" ++
  "## 🔄 可复用性\n**类似问题**: *这个方案可以应用到哪些类似问题*\n**关键模式**: *可以抽取出的通用模式或原则*\n\n---\n*记录时间: " ++
  nowISO ++ "*  \n*置信度: " ++ insight.confidence ++ " - " ++
  getConfidenceDescription insight.confidence ++ "*"

/-! ## Command matcher (`parseUserCommands`, `getUserCommands`) -/

/-- Split on the multiline regex `^## ` : a `## ` at the start of the text or
right after a newline opens a new segment and the marker itself is dropped
(JS `content.split`).  The boolean argument tracks whether the scanner sits
at the start of a line. -/
def splitCmdAux : List Char → List Char → Bool → List (List Char)
  | [], acc, _ => [acc.reverse]
  | '#' :: '#' :: ' ' :: rest, acc, true => acc.reverse :: splitCmdAux rest [] false
  | c :: rest, acc, _ => splitCmdAux rest (c :: acc) (c = '\n')

/-- The filtered section list `content.split(/^## /m).filter(s => s.trim())`. -/
def splitCmdSections (content : String) : List String :=
  ((splitCmdAux content.data [] true).map List.asString).filter
    (fun s => trimB s ≠ "")

/-- Mutable loop state of the per-section field scan. -/
structure SectionState where
  description : String
  relatedDocs : List String
  lastUpdated : String
deriving DecidableEq, Repr

/-- Strip a recognised `**label**:` marker (the first-occurrence regex replace
`\*\*(…)\*\*:\s*`; the line is known to start with the label, so the first
occurrence sits at position 0 and the trailing `\s*` eats following
whitespace). -/
def stripLabel (label line : String) : String :=
  ((line.data.drop label.data.length).dropWhile Char.isWhitespace).asString

/-- One trimmed body line of a command section, updating the scan state. -/
def scanSectionLine (st : SectionState) (rawLine : String) : SectionState :=
  let line := trimB rawLine
  if startsWithB line "**描述**:" then
    { st with description := stripLabel "**描述**:" line }
  else if startsWithB line "**Description**:" then
    { st with description := stripLabel "**Description**:" line }
  else if startsWithB line "**相关文档**:" then
    { st with relatedDocs :=
        ((jsSplitOn (stripLabel "**相关文档**:" line) ',').map trimB).filter (· ≠ "") }
  else if startsWithB line "**Related Docs**:" then
    { st with relatedDocs :=
        ((jsSplitOn (stripLabel "**Related Docs**:" line) ',').map trimB).filter (· ≠ "") }
  else if startsWithB line "**更新时间**:" then
    { st with lastUpdated := stripLabel "**更新时间**:" line }
  else if startsWithB line "**Last Updated**:" then
    { st with lastUpdated := stripLabel "**Last Updated**:" line }
  else if !(startsWithB line "**") && line ≠ "" && st.description = "" then
    { st with description := line }
  else st

/-- One section of the commands file: header line becomes the name, body
lines are scanned for the labelled fields, and the section is kept only when
both a name and a description were found (`if (command && description)`). -/
def sectionToCommand (section' : String) : Option Command :=
  let lines := jsSplitOn section' '\n'
  let command := trimB (lines.headD "")
  let st := (lines.drop 1).foldl scanSectionLine ⟨"", [], ""⟩
  if command ≠ "" ∧ st.description ≠ "" then
    some ⟨command, st.description, st.lastUpdated, st.relatedDocs⟩
  else none

/-- `parseUserCommands`. -/
def parseUserCommands (content : String) : List Command :=
  (splitCmdSections content).filterMap sectionToCommand

/-- The query filter of `getUserCommands`: some whitespace token of the
lower-cased query is a substring of the lower-cased command name or
description (the `word.length > 2 && …` disjunct of the source is kept as
written although it is subsumed by the first two). -/
def commandMatches (queryLower : String) (cmd : Command) : Bool :=
  let commandLower := lowerStr cmd.command
  let descLower := lowerStr cmd.description
  (jsSplitWs queryLower).any fun word =>
    includesB commandLower word || includesB descLower word ||
    (decide (2 < word.data.length) &&
      (includesB commandLower word || includesB descLower word))

/-- `getUserCommands`: read and parse the commands file, filter by the query;
the surrounding `try`/`catch` turns any storage failure into an empty result. -/
def getUserCommands (fm : FM) (query : String) : Except String (List Command) :=
  match fm.dirExists userCommandPath with
  | .error _ => .ok []
  | .ok ex =>
    if ex = false then .ok []
    else
      match fm.readFile userCommandPath with
      | .error _ => .ok []
      | .ok content =>
        .ok ((parseUserCommands content).filter (commandMatches (lowerStr query)))

/-- The synthetic `FactDocument` built from a matched command in
`searchFacts` (`relevanceScore: 1.0`; `cmd.lastUpdated || ''` is the identity
on the always-string `lastUpdated` produced by the parser). -/
def commandToFact (cmd : Command) : FactDocument where
  path := userCommandPath
  title := "项目指令: " ++ cmd.command
  category := "command"
  relevanceScore := 1
  summary := cmd.description
  lastUpdated := cmd.lastUpdated
  relatedDocs := cmd.relatedDocs

/-! ## Collection scan (`findInsightFiles`) -/

/-- One directory phase of `findInsightFiles`: list the `*.md` entries of a
directory when it exists. -/
def scanDirPhase (fm : FM) (dir : String) : Except String (List String) :=
  match fm.dirExists dir with
  | .error e => .error e
  | .ok ex =>
    if ex then
      match fm.listFiles dir with
      | .error e => .error e
      | .ok entries =>
        .ok ((entries.filter (fun f => endsWithB f ".md")).map (pathJoin dir))
    else .ok []

/-- `findInsightFiles`: scan `solutions/` then `docs/`; the surrounding
`try`/`catch` keeps whatever was accumulated before a failure (nothing if the
solutions phase fails, the solutions entries if the docs phase fails). -/
def findInsightFiles (fm : FM) : Except String (List String) :=
  match scanDirPhase fm solutionsPath with
  | .error _ => .ok []
  | .ok solutionFiles =>
    match scanDirPhase fm docsDirPath with
    | .error _ => .ok solutionFiles
    | .ok docFiles => .ok (solutionFiles ++ docFiles)

/-! ## Search (`searchFactsInternal`, `searchFacts`) -/

def defaultCategories : List String := ["technical", "process", "decision", "pattern"]

/-- The loop body of `searchFactsInternal`: per-file `try`/`catch` skips a
file whose read fails; then the category filter, the relevance threshold, and
the `FactDocument` construction. -/
def processFile (fm : FM) (query : String) (categories : List String)
    (minRelevance : ℚ) (acc : List FactDocument) (filePath : String) :
    List FactDocument :=
  match fm.readFile filePath with
  | .error _ => acc
  | .ok content =>
    let metadata := parseInsightMetadata content
    match mdGet metadata "category" with
    | none => acc
    | some category =>
      if categories.contains category then
        let relevanceScore := calculateRelevance query content metadata
        if minRelevance ≤ relevanceScore then
          acc ++ [{ path := filePath
                    title :=
                      match mdGet metadata "title" with
                      | some t => if t = "" then basenameNoMd filePath else t
                      | none => basenameNoMd filePath
                    category := category
                    relevanceScore := relevanceScore
                    summary := extractSummary content
                    lastUpdated := (mdGet metadata "created_date").getD "" }]
        else acc
      else acc

/-- Stable insertion step for the descending sort
`sort((a, b) => b.relevanceScore - a.relevanceScore)` (JS `Array.sort` is
stable, and the stable descending permutation is unique, so stable insertion
sort reproduces it). -/
def insertDesc (d : FactDocument) : List FactDocument → List FactDocument
  | [] => [d]
  | x :: xs =>
    if d.relevanceScore < x.relevanceScore then x :: insertDesc d xs
    else d :: x :: xs

def sortByRelevanceDesc (docs : List FactDocument) : List FactDocument :=
  docs.foldr insertDesc []

/-- `searchFactsInternal`: defaults, existence check, scan, score, filter,
sort, truncate; the outer `try`/`catch` converts **any** failure (including a
failed existence check) into the empty result list. -/
def searchFactsInternal (fm : FM) (query : String) (options : SearchOptions) :
    Except String (List FactDocument) :=
  let maxResults := options.maxResults.getD 10
  let categories := options.categories.getD defaultCategories
  let minRelevance := options.minRelevance.getD (1/2)
  match fm.dirExists localDocsPath with
  | .error _ => .ok []
  | .ok ex =>
    if ex = false then .ok []
    else
      match findInsightFiles fm with
      | .error _ => .ok []
      | .ok files =>
        let factDocuments := files.foldl (processFile fm query categories minRelevance) []
        .ok ((sortByRelevanceDesc factDocuments).take maxResults)

/-- `searchFacts`: matched user commands become maximal-priority synthetic
results prepended to the ordinary pipeline; with no matching command the
ordinary pipeline runs alone. -/
def searchFacts (fm : FM) (query : String) (options : SearchOptions) :
    Except String (List FactDocument) :=
  match getUserCommands fm query with
  | .error e => .error e
  | .ok userCommands =>
    if userCommands.length > 0 then
      match searchFactsInternal fm query options with
      | .error e => .error e
      | .ok normalFacts => .ok (userCommands.map commandToFact ++ normalFacts)
    else searchFactsInternal fm query options

/-! ## Project context (`getProjectContext`) -/

def epochISO : String := "1970-01-01T00:00:00.000Z"

/-- The per-file step of the context scan: failures reading a file are
skipped; the category (possibly `undefined`) joins the insertion-ordered set;
a truthy `created_date` later than the running maximum (JS code-unit string
comparison) replaces it. -/
def contextStep (fm : FM) (st : List (Option String) × String) (filePath : String) :
    List (Option String) × String :=
  match fm.readFile filePath with
  | .error _ => st
  | .ok content =>
    let metadata := parseInsightMetadata content
    let category := mdGet metadata "category"
    let categories := if st.1.contains category then st.1 else st.1 ++ [category]
    let lastActivity :=
      match mdGet metadata "created_date" with
      | some d => if d ≠ "" ∧ jsStrLt st.2 d then d else st.2
      | none => st.2
    (categories, lastActivity)

/-- `getProjectContext`; its outer `try`/`catch` rethrows a wrapped error, so
storage failures (other than per-file reads) propagate. -/
def getProjectContext (fm : FM) (now : String) : Except String ProjectContext :=
  match fm.dirExists localDocsPath with
  | .error e => .error ("Failed to get project context: " ++ e)
  | .ok hasLocalDocs =>
    if hasLocalDocs = false then
      .ok { currentPath := cwd, hasLocalDocs := false, factCount := 0,
            categories := [], lastActivity := now }
    else
      match findInsightFiles fm with
      | .error e => .error ("Failed to get project context: " ++ e)
      | .ok files =>
        let st := files.foldl (contextStep fm) ([], epochISO)
        .ok { currentPath := cwd, hasLocalDocs := true, factCount := files.length,
              categories := st.1,
              lastActivity := if st.2 = epochISO then now else st.2 }

/-! ## Index builder (`updateKnowledge` and helpers) -/

/-- Catalogue entry of `getSolutionFiles` / `getDocFiles`. -/
structure CatalogFile where
  path : String
  name : String
  lastModified : String
  summary : String
deriving DecidableEq, Repr

/-- JS `s.replace(pat, rep)` for a plain-string pattern: first occurrence. -/
def jsReplaceFirst (s pat rep : String) : String :=
  match breakOnFirst pat.data s.data with
  | some (pre, post) => pre.asString ++ rep ++ post.asString
  | none => s

/-- Stable descending insertion by `lastModified`
(`sort((a, b) => b.lastModified.localeCompare(a.lastModified))`; every entry
of one call carries the same ambient timestamp, so the sort is the identity
and the collation detail of `localeCompare` is immaterial — code-unit order
is used here). -/
def insertByModifiedDesc (d : CatalogFile) : List CatalogFile → List CatalogFile
  | [] => [d]
  | x :: xs =>
    if jsStrLt d.lastModified x.lastModified then x :: insertByModifiedDesc d xs
    else d :: x :: xs

def sortByModifiedDesc (files : List CatalogFile) : List CatalogFile :=
  files.foldr insertByModifiedDesc []

/-- Shared body of `getSolutionFiles` and `getDocFiles` (two verbatim copies
in the source, differing only in the directory): catalogue the `*.md` files
of a directory, skipping unreadable ones; the outer `try`/`catch` returns
whatever was accumulated before a failure. -/
def catalogDir (fm : FM) (dir : String) (now : String) : List CatalogFile :=
  let files :=
    match fm.dirExists dir with
    | .error _ => []
    | .ok ex =>
      if ex then
        match fm.listFiles dir with
        | .error _ => []
        | .ok entries =>
          entries.foldl (fun acc fileName =>
            if endsWithB fileName ".md" then
              match fm.readFile (pathJoin dir fileName) with
              | .error _ => acc
              | .ok content =>
                acc ++ [{ path := pathJoin dir fileName, name := fileName,
                          lastModified := now, summary := extractSummary content }]
            else acc) []
      else []
  sortByModifiedDesc files

def getSolutionFiles (fm : FM) (now : String) : List CatalogFile :=
  catalogDir fm solutionsPath now

def getDocFiles (fm : FM) (now : String) : List CatalogFile :=
  catalogDir fm docsDirPath now

/-- The static technology-term vocabulary of `extractTechKeywords`. -/
def techTerms : List String :=
  ["React", "Vue", "Angular", "Node.js", "TypeScript", "JavaScript", "Python",
   "Java", "Go", "Rust", "Docker", "Kubernetes", "AWS", "Azure", "GCP",
   "MySQL", "PostgreSQL", "MongoDB", "Redis", "GraphQL", "REST", "API", "JWT",
   "认证", "性能", "优化", "架构", "设计", "测试", "部署", "数据库", "缓存",
   "网络", "安全", "监控", "日志", "CI/CD", "DevOps"]

/-- One filename matches one term when either lower-cased containment or raw
containment holds. -/
def termHits (fileName term : String) : Bool :=
  includesB (lowerStr fileName) (lowerStr term) || includesB fileName term

/-- `extractTechKeywords`: the insertion-ordered set of terms hit by some
filename (outer loop over filenames, inner over terms), each rendered with
its file count. -/
def extractTechKeywords (fileNames : List String) : List String :=
  let keywords := fileNames.foldl (fun acc fileName =>
    techTerms.foldl (fun acc term =>
      if termHits fileName term && !acc.contains term then acc ++ [term]
      else acc) acc) []
  keywords.map fun k =>
    k ++ "(" ++ toString (fileNames.filter (fun f => termHits f k)).length ++ ")"

/-- One `- \`name\` - summary (最后修改：date)` line of the knowledge index. -/
def catalogLine (file : CatalogFile) : String :=
  let dateStr := (jsSplitOn file.lastModified 'T').headD ""
  "- `" ++ file.name ++ "` - " ++ file.summary ++ " (最后修改：" ++ dateStr ++ ")"

/-- `generateKnowledgeContent` (the `context` argument of the source is never
read inside the template). -/
def generateKnowledgeContent (solutionFiles docFiles : List CatalogFile)
    (_context : ProjectContext) (now : String) : String :=
  let timestamp := now
  let allFileNames := solutionFiles.map CatalogFile.name ++ docFiles.map CatalogFile.name
  let techKeywords := extractTechKeywords allFileNames
  "---\nauto_generated: true  \nlast_updated: " ++ timestamp ++
  "\ntotal_solutions: " ++ toString solutionFiles.length ++
  "\ntotal_docs: " ++ toString docFiles.length ++
  "\ntotal_documents: " ++ toString (solutionFiles.length + docFiles.length) ++
  "\n---\n\n# 📚 Facts Knowledge Base 导航\n\n> ⚠️ 重要提醒：开始任何任务前，必须先查看本导航了解现有知识！\n\n" ++
  "## 🔧 Solutions (我解决过的问题) - 共" ++ toString solutionFiles.length ++ "个\n\n" ++
  (if solutionFiles.length > 0 then String.intercalate "\n" (solutionFiles.map catalogLine)
   else "*暂无解决方案 - 开始记录你的第一个问题解决过程！*") ++
  "\n\n## 📖 Docs (我摘录的原文资料) - 共" ++ toString docFiles.length ++ "个  \n\n" ++
  (if docFiles.length > 0 then String.intercalate "\n" (docFiles.map catalogLine)
   else "*暂无原文摘录 - 开始摘录权威技术资料！*") ++
  "\n\n## 🏷️ 技术关键词统计\n\n" ++
  (if techKeywords.length > 0 then String.intercalate " " techKeywords
   else "暂无关键词统计") ++
  "\n\n## 🚀 使用指南\n\n### 开始新任务前\n1. 使用 `how_to_solve \"你的问题描述\"` 查找相关经验\n2. Agent将分析历史知识并提供解决思路  \n3. 基于建议开始实施解决方案\n\n" ++
  "### 完成任务后\n1. 使用 `record_insight` 记录解决过程和关键发现\n2. 系统自动更新本导航和知识分类\n3. 为未来类似问题积累可搜索的知识\n\n---\n*本导航自动更新于：" ++
  (jsSplitOn (jsReplaceFirst timestamp "T" " ") '.').headD "" ++ "*"

/-- `updateKnowledge`: rebuild the navigational index; every failure inside
(context scan or the final write) is caught and merely logged, so the result
is the list of successful writes — `[KNOWLEDGE.md]` or nothing. -/
def updateKnowledge (fm : FM) (now : String) : List WriteOp :=
  match getProjectContext fm now with
  | .error _ => []
  | .ok context =>
    let solutionFiles := getSolutionFiles fm now
    let docFiles := getDocFiles fm now
    let knowledgeContent := generateKnowledgeContent solutionFiles docFiles context now
    match fm.writeFile knowledgePath knowledgeContent with
    | .error _ => []
    | .ok _ => [{ path := knowledgePath, content := knowledgeContent }]

/-! ## Insight writer (`recordInsight`) and `initializeLocalDocs` -/

/-- `recordInsight`: returns the `writeFile` calls that succeeded, in order,
together with the outcome.  A failing write is rethrown wrapped
(`Failed to record insight: …`); the subsequent index rebuild never fails
(its errors are swallowed inside `updateKnowledge`).  The `fm` passed to the
rebuild stands for storage as observed after the first write. -/
def recordInsight (fm : FM) (insight : InsightRecord) (now : String) :
    List WriteOp × Except String Unit :=
  let filename := generateInsightFilename insight
  let filePath := pathJoin solutionsPath filename
  let content := formatInsightContent insight now
  match fm.writeFile filePath content with
  | .error e => ([], .error ("Failed to record insight: " ++ e))
  | .ok _ => ({ path := filePath, content := content } :: updateKnowledge fm now, .ok ())

/-- `FactsManager.initializeLocalDocs`: idempotently create the three
directories, wrapping any failure. -/
def initLocalDocs (fm : FM) : Except String Unit :=
  match fm.createDirectory localDocsPath with
  | .error e => .error ("Failed to initialize local docs: " ++ e)
  | .ok _ =>
    match fm.createDirectory solutionsPath with
    | .error e => .error ("Failed to initialize local docs: " ++ e)
    | .ok _ =>
      match fm.createDirectory docsDirPath with
      | .error e => .error ("Failed to initialize local docs: " ++ e)
      | .ok _ => .ok ()

/-! ## Tool layer (`how-to-solve.ts`, `record-insight.ts`,
`init-facts-system.ts`)

Each tool's `execute` first runs `Schema.parse(args)` **outside** its
`try`/`catch` and then wraps the rest.  Raw arguments are records of optional
fields; a `zod` failure is an `Except.error` escaping `execute`.  The
`data` payload of a successful envelope is informational only and is elided
to `some ()`; the claims under verification concern the envelope boundary,
not the payload contents. -/

structure Envelope where
  success : Bool
  message : String
  data : Option Unit
  timestamp : String
deriving DecidableEq, Repr

structure HowToSolveRawArgs where
  problem : Option String := none
  context : Option String := none
  constraints : Option (List String) := none
  priority : Option String := none
deriving DecidableEq, Repr

structure HowToSolveInput where
  problem : String
  context : Option String
  constraints : Option (List String)
  priority : String
deriving DecidableEq, Repr

/-- `HowToSolveInputSchema.parse`: `problem` is required, `priority` is an
optional enum defaulting to `medium`. -/
def parseHowToSolve (args : HowToSolveRawArgs) : Except String HowToSolveInput :=
  match args.problem with
  | none => .error "ZodError: problem: Required"
  | some problem =>
    match args.priority with
    | none => .ok ⟨problem, args.context, args.constraints, "medium"⟩
    | some priority =>
      if priority = "high" ∨ priority = "medium" ∨ priority = "low" then
        .ok ⟨problem, args.context, args.constraints, priority⟩
      else .error "ZodError: priority: Invalid enum value"

/-- `HowToSolveTool.execute`: the schema parse sits **outside** the
`try`/`catch`, so its failure escapes `execute`; every failure inside the
`try` becomes a `success := false` envelope. -/
def howToSolveExecute (fm : FM) (now : String) (args : HowToSolveRawArgs) :
    Except String Envelope :=
  match parseHowToSolve args with
  | .error e => .error e
  | .ok input =>
    let currentTime := now
    .ok (match getProjectContext fm currentTime with
      | .error e =>
        { success := false, message := "Failed to analyze problem: " ++ e,
          data := none, timestamp := currentTime }
      | .ok _projectContext =>
        match searchFacts fm input.problem
            { maxResults := some 10,
              categories := some ["technical", "process", "pattern"],
              minRelevance := some (3/5) } with
        | .error e =>
          { success := false, message := "Failed to analyze problem: " ++ e,
            data := none, timestamp := currentTime }
        | .ok relevantFacts =>
          { success := true,
            message := "Found " ++ toString relevantFacts.length ++
              " relevant insights for problem analysis",
            data := some (), timestamp := currentTime })

structure RecordInsightRawArgs where
  task : Option String := none
  solution : Option String := none
  reasoning : Option String := none
  evidence : Option (List String) := none
  category : Option String := none
  confidence : Option String := none
  tags : Option (List String) := none
  related_files : Option (List String) := none
deriving DecidableEq, Repr

structure RecordInsightInput where
  task : String
  solution : String
  reasoning : String
  evidence : Option (List String)
  category : String
  confidence : String
  tags : Option (List String)
  related_files : Option (List String)
deriving DecidableEq, Repr

/-- `RecordInsightInputSchema.parse`: `task`/`solution`/`reasoning` required
strings, `category` a required enum, `confidence` an optional enum defaulting
to `medium`. -/
def parseRecordInsight (args : RecordInsightRawArgs) :
    Except String RecordInsightInput :=
  match args.task, args.solution, args.reasoning with
  | some task, some solution, some reasoning =>
    match args.category with
    | none => .error "ZodError: category: Required"
    | some category =>
      if category = "technical" ∨ category = "process" ∨ category = "decision" ∨
          category = "pattern" then
        match args.confidence with
        | none =>
          .ok ⟨task, solution, reasoning, args.evidence, category, "medium",
               args.tags, args.related_files⟩
        | some confidence =>
          if confidence = "high" ∨ confidence = "medium" ∨ confidence = "low" then
            .ok ⟨task, solution, reasoning, args.evidence, category, confidence,
                 args.tags, args.related_files⟩
          else .error "ZodError: confidence: Invalid enum value"
      else .error "ZodError: category: Invalid enum value"
  | _, _, _ => .error "ZodError: missing required field"

/-- `RecordInsightTool.execute`.  The payload helpers (`generateInsightHash`,
tag extraction, filename suggestion, keyword extraction) are pure string
computations feeding only the elided `data` payload. -/
def recordInsightExecute (fm : FM) (now : String) (args : RecordInsightRawArgs) :
    Except String Envelope :=
  match parseRecordInsight args with
  | .error e => .error e
  | .ok input =>
    let currentTime := now
    let insightRecord : InsightRecord :=
      { task := input.task, solution := input.solution,
        reasoning := input.reasoning, evidence := input.evidence.getD [],
        category := input.category, confidence := input.confidence }
    .ok (match getProjectContext fm currentTime with
      | .error e =>
        { success := false, message := "Failed to record insight: " ++ e,
          data := none, timestamp := currentTime }
      | .ok _projectContext =>
        match (recordInsight fm insightRecord currentTime).2 with
        | .error e =>
          { success := false, message := "Failed to record insight: " ++ e,
            data := none, timestamp := currentTime }
        | .ok _ =>
          { success := true,
            message := "Successfully recorded " ++ input.category ++ " insight",
            data := some (), timestamp := currentTime })

/-- `InitFactsSystemTool.generateKnowledgeContent`. -/
def initKnowledgeContent (now : String) : String :=
  "---\nauto_generated: true\nlast_updated: " ++ now ++
  "\ntotal_documents: 0\ncategories: [\"technical\", \"process\", \"decision\", \"pattern\"]\n---\n\n" ++
  "# 项目知识库指南\n\n## 📊 知识统计\n- **技术洞察**: 0个 (技术实现、工具使用、架构设计等)\n- **流程改进**: 0个 (工作流程、开发流程、协作方式等)  \n- **决策记录**: 0个 (重要决策、选择reasoning、权衡分析等)\n- **模式总结**: 0个 (可复用的解决模式、最佳实践等)\n\n" ++
  "## 📁 按类别分类\n\n### 🔧 技术洞察 (Technical)\n*暂无文档 - 开始记录你的第一个技术发现！*\n\n### 🔄 流程改进 (Process) \n*暂无文档 - 记录改进开发效率的经验*\n\n### 🎯 决策记录 (Decision)\n*暂无文档 - 记录重要的技术和业务决策*\n\n### 🧩 模式总结 (Pattern)\n*暂无文档 - 沉淀可复用的解决方案模式*\n\n" ++
  "## 🚀 使用指南\n\n### 开始新任务前\n1. 使用 `how_to_solve \"你的问题描述\"` 查找相关经验\n2. Agent将分析历史知识并提供解决思路\n3. 基于建议开始实施解决方案\n\n### 完成任务后  \n1. 使用 `record_insight` 记录解决过程和关键发现\n2. 系统自动更新本指南和知识分类\n3. 为未来类似问题积累可搜索的知识\n\n" ++
  "### 知识复用\n- **关键词搜索**: 系统自动从任务描述中提取关键词匹配历史经验\n- **类别浏览**: 按technical/process/decision/pattern浏览相关知识  \n- **相关性评分**: 自动计算历史经验与当前问题的相关度\n\n" ++
  "## 🎯 最佳实践建议\n\n### 记录洞察时\n- **具体化**: 记录具体的问题、解决方案、和reasoning\n- **可操作**: 包含足够细节让他人可以复现解决方案\n- **有证据**: 提供支持你conclusion的evidence或参考资料\n- **标签化**: 使用准确的category和tags便于后续搜索\n\n" ++
  "### 使用历史知识时\n- **批判思维**: 历史方案可能不完全适用当前场景\n- **验证假设**: 基于当前约束条件验证历史方案的可行性  \n- **持续改进**: 在复用基础上进一步优化和完善方案\n\n---\n*本指南由Facts MCP系统自动维护，每次记录洞察后自动更新*"

/-- `InitFactsSystemTool.generateClaudeMdContent`. -/
def generateClaudeMdContent (enableAutoCapture : Bool) : String :=
  "\n# Project Facts Management Integration\n\n## Facts System Workflow\n\n本项目已集成 @bagaking/proj_facts_mcp 知识管理系统，请遵循以下工作流程：\n\n" ++
  "### 🔍 任务开始前 - 必须执行\n**在开始任何新任务前，必须先查找相关经验：**\n```bash\n# MCP调用示例 - 在Claude Code中直接使用\nhow_to_solve \"你要解决的具体问题描述\"\n```\n\n系统将：\n1. 自动搜索local_docs中的相关历史经验\n2. 分析问题复杂度并推荐合适的解决方案Agent\n3. 提供结构化的问题分析和解决思路\n4. 给出具体的实施建议和注意事项\n\n" ++
  "### 📝 任务完成后 - 必须执行  \n**完成任务后，必须记录关键洞察和经验：**\n```bash\n# 记录技术实现经验\nrecord_insight --category technical --task \"实现用户认证\" --solution \"使用JWT+Redis方案\" --reasoning \"考虑到性能和安全性...\" --confidence high\n\n# 记录流程改进经验\nrecord_insight --category process --task \"优化代码review流程\" --solution \"引入自动化检查+人工review\" --reasoning \"平衡效率和质量\" --confidence medium\n```\n\n" ++
  (if enableAutoCapture then
    "\n### 🤖 自动化集成 (已启用)\n系统已配置自动提醒机制：\n- **任务开始时**: 自动提示使用 `how_to_solve` 查找相关经验\n- **任务结束时**: 自动提示使用 `record_insight` 记录洞察\n- **知识积累**: 每次记录后自动更新 `local_docs/GUIDELINE.md`\n"
   else "") ++
  "\n\n## Facts System 目录结构\n\n```\nlocal_docs/                    # 项目知识库\n├── GUIDELINE.md              # 自动维护的知识目录和统计\n├── categories/               # 按类别组织的洞察\n│   ├── technical/           # 技术实现相关\n│   ├── process/             # 流程改进相关  \n│   ├── decision/            # 决策记录相关\n│   └── pattern/             # 可复用模式相关\n├── templates/               # 洞察记录模板\n└── [INSIGHT_YYYYMMDD_category_keywords.md] # 具体洞察文档\n\nagents/                       # 本地Agent提示模板\n└── facts-manager.md         # 统一的知识管理Agent\n```\n\n" ++
  "## 使用原则\n\n### 必须遵循的工作流\n1. **开始任务** → `how_to_solve` → **获得指导** → **执行任务**\n2. **完成任务** → `record_insight` → **沉淀经验** → **更新知识库**\n3. **重复使用** → 历史经验复用 → **持续改进**\n\n" ++
  "### 知识质量要求\n- **具体性**: 记录具体问题、具体解决方案、具体reasoning\n- **可操作性**: 其他人基于记录的信息能够复现解决方案  \n- **有证据性**: 提供supporting evidence、参考资料、验证结果\n- **可搜索性**: 使用准确的关键词和标签便于后续检索\n\n---\n\n*Facts Management System v0.1.0 - 让每次解决问题都成为团队知识的增长*\n"

/-- `InitFactsSystemTool.mergeClaudeMdContent`. -/
def mergeClaudeMd (existingContent newContent : String) : String :=
  if includesB existingContent "Project Facts Management Integration" then
    existingContent
  else existingContent ++ "\n\n" ++ newContent

/-- `InitFactsSystemTool.generateInsightTemplate`. -/
def insightTemplate : String :=
  "---\ncategory: [technical|process|decision|pattern]\nconfidence: [high|medium|low]\ncreated_date: YYYY-MM-DD\ntags: [tag1, tag2, tag3]\nrelated_files: [file1, file2]\n---\n\n" ++
  "# [任务标题] - 解决方案洞察\n\n## 🎯 问题描述\n[详细描述遇到的具体问题，包括背景和约束条件]\n\n## 💡 解决方案\n[详细描述采用的解决方案，包括关键步骤和实现细节]\n\n## 🤔 解决思路 (Reasoning)\n[解释为什么选择这个方案，考虑了哪些因素，权衡了哪些选项]\n\n" ++
  "## 📋 实施步骤\n1. **准备阶段**: [具体步骤]\n2. **核心实施**: [具体步骤]  \n3. **验证测试**: [具体步骤]\n4. **总结优化**: [具体步骤]\n\n## 📊 验证结果\n[解决方案的效果如何，有什么可以量化的指标或结果]\n\n" ++
  "## 🔗 参考资料\n- [资料1]: [具体章节或链接] - [为什么相关]\n- [资料2]: [具体章节或链接] - [为什么相关]\n\n## ⚠️ 注意事项\n- **风险点**: [实施过程中需要注意的风险]\n- **适用场景**: [这个方案适用于什么场景，不适用于什么场景]\n- **改进空间**: [未来可以怎么优化这个方案]\n\n" ++
  "## 🔄 可复用性\n**类似问题**: [这个方案可以应用到哪些类似问题]\n**关键模式**: [可以抽取出的通用模式或原则]\n**扩展方向**: [基于这个方案可以怎么扩展解决更复杂问题]\n\n---\n*记录时间: [YYYY-MM-DD HH:MM]*  \n*置信度: [对这个方案的信心程度及原因]*"

/-- The word capitalisation of `getAgentTemplate`
(`word.charAt(0).toUpperCase() + word.slice(1)`). -/
def capitalizeWord (w : String) : String :=
  match w.data with
  | [] => ""
  | c :: rest => (c.toUpper :: rest).asString

/-- `InitFactsSystemTool.getAgentTemplate`. -/
def agentTemplate (filename : String) : String :=
  let title := String.intercalate " "
    ((jsSplitOn (jsReplaceFirst filename ".md" "") '-').map capitalizeWord)
  "# " ++ title ++ " Agent\n\n专业的问题解决Agent模板 - 请根据项目需求自定义。\n\n## 核心能力\n- 问题分析\n- 方案设计  \n- 实施指导\n- 质量保证\n\n## 工作流程\n1. 理解问题上下文\n2. 分析相关历史经验\n3. 设计解决方案\n4. 提供实施指导\n\n*此模板需要根据具体项目需求进行定制*"

/-- `InitFactsSystemTool.generateUserCommandTemplate`. -/
def userCommandTemplate (now : String) : String :=
  let nowDate := (jsSplitOn now 'T').headD ""
  "---\n# 项目特定指令和要求\n# 此文件用于定义项目中必须遵循的强制性规则和指令\n# 每个指令将在 how_to_solve 时优先显示\n---\n\n# 项目指令中心 (USER_COMMAND.md)\n\n> 📋 **重要**: 这些是项目中必须严格遵循的指令。使用 `how_to_solve` 时，相关指令将优先显示。\n\n" ++
  "## 包管理工具\n\n**描述**: 本项目必须使用 pnpm 进行包管理，禁止使用 npm 或 yarn\n**相关文档**: \n**更新时间**: " ++ nowDate ++
  "\n\n在所有安装、更新、运行脚本时必须使用 `pnpm`：\n- 安装依赖: `pnpm install`\n- 添加依赖: `pnpm add <package>`\n- 运行脚本: `pnpm run <script>`\n\n" ++
  "## 代码风格\n\n**描述**: 严格遵循项目 ESLint 和 Prettier 配置，提交前必须通过 lint 检查\n**相关文档**: \n**更新时间**: " ++ nowDate ++
  "\n\n所有代码变更必须：\n1. 通过 `pnpm run lint` 检查\n2. 通过 `pnpm run type-check` 检查\n3. 遵循现有代码的命名和组织方式\n\n" ++
  "## 测试要求\n\n**描述**: 所有新功能必须包含相应的单元测试，测试覆盖率不低于80%\n**相关文档**: \n**更新时间**: " ++ nowDate ++
  "\n\n在提交代码前必须：\n1. 运行 `pnpm test` 确保所有测试通过\n2. 为新功能编写对应的测试用例\n3. 验证测试覆盖率满足要求\n\n---\n\n" ++
  "## 如何添加新指令\n\n每个指令使用以下格式：\n\n```markdown\n## 指令标题\n\n**描述**: 简要描述这个指令的内容和要求\n**相关文档**: 如果有相关的 docs/ 文件，在此引用\n**更新时间**: YYYY-MM-DD\n\n详细的指令内容和具体要求...\n```\n\n*系统会自动检测查询内容与指令的匹配度，相关指令会在解决方案中优先显示*"

structure InitRawArgs where
  project_path : Option String := none
  enable_auto_capture : Option Bool := none
deriving DecidableEq, Repr

structure InitInput where
  project_path : Option String
  enable_auto_capture : Bool
deriving DecidableEq, Repr

/-- `InitFactsSystemInputSchema.parse`: both fields optional,
`enable_auto_capture` defaulting to `true` (no required field, so parsing a
well-typed argument record always succeeds). -/
def parseInitFactsSystem (args : InitRawArgs) : Except String InitInput :=
  .ok { project_path := args.project_path,
        enable_auto_capture := args.enable_auto_capture.getD true }

/-- The `try` body of `InitFactsSystemTool.execute`, as the sequence of
storage steps; the first failure aborts the sequence. -/
def initFactsSystemSteps (fm : FM) (currentTime projectPath : String)
    (enableAutoCapture : Bool) : Except String Unit :=
  let localDocs := pathJoin projectPath "local_docs"
  match fm.createDirectory localDocs with
  | .error e => .error e
  | .ok _ =>
  match initLocalDocs fm with
  | .error e => .error e
  | .ok _ =>
  match fm.writeFile (pathJoin localDocs "KNOWLEDGE.md") (initKnowledgeContent currentTime) with
  | .error e => .error e
  | .ok _ =>
  match fm.writeFile (pathJoin localDocs "USER_COMMAND.md") (userCommandTemplate currentTime) with
  | .error e => .error e
  | .ok _ =>
  match fm.createDirectory (pathJoin projectPath "agents") with
  | .error e => .error e
  | .ok _ =>
  match fm.writeFile (pathJoin (pathJoin projectPath "agents") "facts-manager.md")
      (agentTemplate "facts-manager.md") with
  | .error e => .error e
  | .ok _ =>
  let claudeMdPath := pathJoin projectPath "CLAUDE.md"
  let claudeMdNew := generateClaudeMdContent enableAutoCapture
  match fm.dirExists claudeMdPath with
  | .error e => .error e
  | .ok ex =>
  match (if ex then
      match fm.readFile claudeMdPath with
      | .error e => .error e
      | .ok existingContent =>
        fm.writeFile claudeMdPath (mergeClaudeMd existingContent claudeMdNew)
    else fm.writeFile claudeMdPath claudeMdNew) with
  | .error e => .error e
  | .ok _ =>
  match fm.createDirectory (pathJoin localDocs "templates") with
  | .error e => .error e
  | .ok _ =>
  fm.writeFile (pathJoin (pathJoin localDocs "templates") "insight-template.md") insightTemplate

/-- `InitFactsSystemTool.execute`: like the other two tools, the schema parse
sits outside the `try`/`catch` (though this schema has no required field). -/
def initFactsSystemExecute (fm : FM) (now : String) (args : InitRawArgs) :
    Except String Envelope :=
  match parseInitFactsSystem args with
  | .error e => .error e
  | .ok input =>
    let currentTime := now
    let projectPath := input.project_path.getD cwd
    .ok (match initFactsSystemSteps fm currentTime projectPath input.enable_auto_capture with
      | .error e =>
        { success := false, message := "Failed to initialize facts system: " ++ e,
          data := none, timestamp := currentTime }
      | .ok _ =>
        { success := true, message := "Facts system successfully initialized",
          data := some (), timestamp := currentTime })

/-! ## Specification-side definitions

Used only to compare the spec's wording with the embedded code; each is
written from the spec's sentence, not from the source. -/

/-- The word-overlap signal as §4.2 of the spec words it, over a given piece
of document text: whitespace-delimited lower-cased tokens of query and text,
bidirectional substring containment, matching-token count over total token
count, times the weight 0.4. -/
def specWordOverlap (query text : String) : ℚ :=
  let queryTokens := jsSplitWs (lowerStr query)
  let docTokens := jsSplitWs (lowerStr text)
  ((queryTokens.countP (fun w =>
      docTokens.any (fun t => includesB t w || includesB w t)) : ℚ) /
    (queryTokens.length : ℚ)) * (2/5)

/-- The scorer as claim C5 reads it: the word overlap computed over the
**body** (the text following the header block) instead of the whole document
text. -/
def scoreWithBodyOverlap (query content : String)
    (metadata : List (String × String)) : ℚ :=
  min (titleSignal (lowerStr query) metadata +
    specWordOverlap query (stripFrontMatter content) +
    categorySignal (lowerStr query) metadata +
    tagSignal (lowerStr query) metadata) 1

/-- The scorer with the word overlap taken over the whole document text —
the amended reading of claim C5. -/
def scoreWithFullTextOverlap (query content : String)
    (metadata : List (String × String)) : ℚ :=
  min (titleSignal (lowerStr query) metadata +
    specWordOverlap query content +
    categorySignal (lowerStr query) metadata +
    tagSignal (lowerStr query) metadata) 1

/-- The filename rule as claim C8 words it: keep only alphanumeric and CJK
characters and truncate to at most 30 characters. -/
def sanitizedPrefix (s : String) : String :=
  ((s.data.filter keepChar).take 30).asString

/-! ## Concrete storage models and fixtures -/

deriving instance DecidableEq for Except

/-- An in-memory storage model: an association list of files plus a list of
directories; writes succeed without being recorded (reads model the state a
scenario fixes). -/
def listFM (files : List (String × String)) (dirs : List String) : FM where
  dirExists := fun p => .ok (dirs.contains p || files.any (fun f => f.1 = p))
  readFile := fun p =>
    match files.find? (fun f => f.1 = p) with
    | some f => .ok f.2
    | none => .error ("ENOENT: " ++ p)
  listFiles := fun d => .ok (files.filterMap (fun f =>
    if startsWithB f.1 (d ++ "/") then
      let rest : String := ⟨f.1.data.drop (d.data.length + 1)⟩
      if rest.data.contains '/' then none else some rest
    else none))
  writeFile := fun _ _ => .ok ()
  createDirectory := fun _ => .ok ()

/-- A storage backend where every operation fails. -/
def errFM : FM where
  dirExists := fun _ => .error "disk failure"
  readFile := fun _ => .error "disk failure"
  writeFile := fun _ _ => .error "disk failure"
  listFiles := fun _ => .error "disk failure"
  createDirectory := fun _ => .error "disk failure"

/-- A storage backend where every operation succeeds trivially. -/
def okFM : FM where
  dirExists := fun _ => .ok true
  readFile := fun _ => .ok ""
  writeFile := fun _ _ => .ok ()
  listFiles := fun _ => .ok []
  createDirectory := fun _ => .ok ()

/-- The spec's §8 example insight. -/
def c3Insight : InsightRecord where
  task := "implement login"
  solution := "use JWT"
  reasoning := "stateless"
  evidence := []
  category := "technical"
  confidence := "high"

def c3Now : String := "2024-01-15T10:00:00.000Z"

/-- The document text `recordInsight` writes for the example insight. -/
def c3Content : String := formatInsightContent c3Insight c3Now

def c3SolPath : String := pathJoin solutionsPath (generateInsightFilename c3Insight)

/-- The store as it stands right after recording the example insight: the one
written solution document. -/
def c3FM : FM := listFM [(c3SolPath, c3Content)] [localDocsPath, solutionsPath]

/-- A document whose front matter mentions `category` only in the header. -/
def c5Doc : String := "---\ncategory: technical\n---\nbody"

/-- A store holding one document with the given text. -/
def singleDocFM (content : String) : FM :=
  listFM [(pathJoin solutionsPath "doc.md", content)] [localDocsPath, solutionsPath]

/-- A document carrying a delimiter block with zero parsable fields. -/
def c6Doc : String := "---\nmalformed\n---\nbody"

def c2Content : String := "## deploy\nuse the deploy script\n"

def c2FM : FM := listFM [(userCommandPath, c2Content)] []

def c10Content : String := "## style\nfollow the guide\n"

def c10FM : FM := listFM [(userCommandPath, c10Content)] []

def c4Insight : InsightRecord where
  task := "task"
  solution := "solution"
  reasoning := "because"
  evidence := []
  category := "process"
  confidence := "medium"

def c8Insight : InsightRecord where
  task := "fix CI! (pipeline)"
  solution := "cache node_modules"
  reasoning := "faster builds"
  evidence := []
  category := "technical"
  confidence := "medium"

def c7HowArgs : HowToSolveRawArgs where
  problem := some "fix the bug"

def c7RecArgs : RecordInsightRawArgs where
  task := some "t"
  solution := some "s"
  reasoning := some "r"
  category := some "technical"

/-! ## Helper lemmas -/

set_option maxRecDepth 400000

/-- `searchFactsInternal` never produces an error: its outer catch converts
every failure into `[]`. -/
theorem searchFactsInternal_isOk (fm : FM) (query : String) (options : SearchOptions) :
    ∃ docs, searchFactsInternal fm query options = Except.ok docs := by
  unfold searchFactsInternal
  split
  · exact ⟨_, rfl⟩
  · split
    · exact ⟨_, rfl⟩
    · split
      · exact ⟨_, rfl⟩
      · exact ⟨_, rfl⟩

/-- `getUserCommands` never produces an error. -/
theorem getUserCommands_isOk (fm : FM) (query : String) :
    ∃ cmds, getUserCommands fm query = Except.ok cmds := by
  unfold getUserCommands
  split
  · exact ⟨_, rfl⟩
  · split
    · exact ⟨_, rfl⟩
    · split
      · exact ⟨_, rfl⟩
      · exact ⟨_, rfl⟩

/-- `searchFacts` never produces an error. -/
theorem searchFacts_isOk (fm : FM) (query : String) (options : SearchOptions) :
    ∃ docs, searchFacts fm query options = Except.ok docs := by
  unfold searchFacts
  obtain ⟨cmds, hc⟩ := getUserCommands_isOk fm query
  obtain ⟨normal, hn⟩ := searchFactsInternal_isOk fm query options
  simp only [hc, hn]
  split
  · exact ⟨_, rfl⟩
  · exact ⟨_, rfl⟩

/-- Evaluating `getUserCommands` against a store where the commands file
exists and reads successfully. -/
theorem getUserCommands_eval (fm : FM) (query content : String)
    (hex : fm.dirExists userCommandPath = Except.ok true)
    (hrd : fm.readFile userCommandPath = Except.ok content) :
    getUserCommands fm query =
      Except.ok ((parseUserCommands content).filter (commandMatches (lowerStr query))) := by
  unfold getUserCommands
  rw [hex, hrd]
  rfl

/-- The two branches of `searchFacts`, given the parsed-and-filtered command
list. -/
theorem searchFacts_characterization (fm : FM) (query : String)
    (options : SearchOptions) (cmds : List Command)
    (hc : getUserCommands fm query = Except.ok cmds) :
    (cmds = [] → searchFacts fm query options = searchFactsInternal fm query options) ∧
    (cmds ≠ [] → ∃ normalFacts,
      searchFactsInternal fm query options = Except.ok normalFacts ∧
      searchFacts fm query options =
        Except.ok (cmds.map commandToFact ++ normalFacts)) := by
  obtain ⟨normal, hn⟩ := searchFactsInternal_isOk fm query options
  constructor
  · intro h
    subst h
    unfold searchFacts
    simp only [hc]
    simp
  · intro h
    refine ⟨normal, hn, ?_⟩
    unfold searchFacts
    simp only [hc, hn]
    simp [List.length_pos.mpr h]

/-- Every write performed by `updateKnowledge` targets `KNOWLEDGE.md`. -/
theorem updateKnowledge_paths (fm : FM) (now : String) :
    ∀ w ∈ updateKnowledge fm now, w.path = knowledgePath := by
  intro w hw
  unfold updateKnowledge at hw
  split at hw
  · simp at hw
  · simp only [] at hw
    split at hw
    · simp at hw
    · simp at hw
      rw [hw]

/-- ASCII lowering fixes whitespace characters. -/
theorem toLower_of_ws (c : Char) (h : c.isWhitespace = true) : c.toLower = c := by
  simp only [Char.isWhitespace, Bool.or_eq_true, decide_eq_true_eq] at h
  rcases h with ((h | h) | h) | h <;> subst h <;> decide

/-- Lowering a whitespace-only string keeps it whitespace-only. -/
theorem lowerStr_all_ws (q : String) (h : ∀ c ∈ q.data, c.isWhitespace = true) :
    ∀ c ∈ (lowerStr q).data, c.isWhitespace = true := by
  intro c hc
  unfold lowerStr at hc
  simp only [List.mem_map] at hc
  obtain ⟨c₀, hc₀, rfl⟩ := hc
  rw [toLower_of_ws c₀ (h c₀ hc₀)]
  exact h c₀ hc₀

/-- Splitting a whitespace-only string on whitespace yields an empty token. -/
theorem empty_token_mem (s : String) (h : ∀ c ∈ s.data, c.isWhitespace = true) :
    "" ∈ jsSplitWs s := by
  unfold jsSplitWs
  cases hd : s.data with
  | nil => decide
  | cons c rest =>
    have hc : c.isWhitespace = true := h c (by rw [hd]; exact List.mem_cons_self c rest)
    simp [jsSplitWsAux, hc]
    left
    rfl

/-- The empty string is a substring of every string. -/
theorem includesB_empty (s : String) : includesB s "" = true := by
  unfold includesB
  cases h : s.data with
  | nil => rfl
  | cons c rest => simp [breakOnFirst, List.isPrefixOf]

/-- A whitespace-only query matches every command. -/
theorem commandMatches_of_ws (q : String) (h : ∀ c ∈ q.data, c.isWhitespace = true)
    (cmd : Command) : commandMatches (lowerStr q) cmd = true := by
  unfold commandMatches
  rw [List.any_eq_true]
  refine ⟨"", empty_token_mem (lowerStr q) (lowerStr_all_ws q h), ?_⟩
  simp [includesB_empty]

theorem titleSignal_bounds (queryLower : String) (metadata : List (String × String)) :
    0 ≤ titleSignal queryLower metadata ∧ titleSignal queryLower metadata ≤ 2/5 := by
  unfold titleSignal
  split
  · split <;> norm_num
  · norm_num

theorem wordSignal_bounds (queryLower contentLower : String) :
    0 ≤ wordSignal queryLower contentLower ∧ wordSignal queryLower contentLower ≤ 2/5 := by
  unfold wordSignal
  constructor
  · positivity
  · have hle : (((jsSplitWs queryLower).filter fun word =>
        (jsSplitWs contentLower).any fun contentWord =>
          includesB contentWord word || includesB word contentWord).length : ℚ) ≤
        ((jsSplitWs queryLower).length : ℚ) := by
      exact_mod_cast List.length_filter_le _ _
    have h1 : (((jsSplitWs queryLower).filter fun word =>
        (jsSplitWs contentLower).any fun contentWord =>
          includesB contentWord word || includesB word contentWord).length : ℚ) /
        ((jsSplitWs queryLower).length : ℚ) ≤ 1 :=
      div_le_one_of_le₀ hle (by positivity)
    calc _ ≤ (1 : ℚ) * (2/5) := by
          exact mul_le_mul_of_nonneg_right h1 (by norm_num)
      _ = 2/5 := by norm_num

theorem categorySignal_bounds (queryLower : String) (metadata : List (String × String)) :
    0 ≤ categorySignal queryLower metadata ∧ categorySignal queryLower metadata ≤ 1/10 := by
  unfold categorySignal
  split
  · split <;> norm_num
  · norm_num

theorem tagSignal_bounds (queryLower : String) (metadata : List (String × String)) :
    0 ≤ tagSignal queryLower metadata ∧ tagSignal queryLower metadata ≤ 1/10 := by
  unfold tagSignal
  split
  · rename_i t _
    split
    · norm_num
    · simp only []
      have hle : ((List.filter (fun tag =>
          includesB queryLower (lowerStr tag) || includesB (lowerStr tag) queryLower)
          [t]).length : ℚ) ≤ 1 := by
        exact_mod_cast List.length_filter_le _ [t]
      have hnn : (0:ℚ) ≤ ((List.filter (fun tag =>
          includesB queryLower (lowerStr tag) || includesB (lowerStr tag) queryLower)
          [t]).length : ℚ) := by positivity
      have hmax : ((([t].length : ℚ)) ⊔ 1) = 1 := by norm_num
      rw [hmax, div_one]
      constructor
      · positivity
      · nlinarith
  · norm_num

/-- **C1** (confirmed).  For every query string, document text and parsed
header, the relevance score returned by `calculateRelevance` lies in the
closed interval `[0, 1]`: each signal is independently bounded
(`0.4 + 0.4 + 0.1 + 0.1 = 1.0`) and the final value is explicitly clamped at
`1.0`. -/
theorem relevance_score_in_unit_interval (query content : String)
    (metadata : List (String × String)) :
    0 ≤ calculateRelevance query content metadata ∧
    calculateRelevance query content metadata ≤ 1 := by
  unfold calculateRelevance
  obtain ⟨t0, _⟩ := titleSignal_bounds (lowerStr query) metadata
  obtain ⟨w0, _⟩ := wordSignal_bounds (lowerStr query) (lowerStr content)
  obtain ⟨c0, _⟩ := categorySignal_bounds (lowerStr query) metadata
  obtain ⟨g0, _⟩ := tagSignal_bounds (lowerStr query) metadata
  constructor
  · exact le_min (by linarith) (by norm_num)
  · exact min_le_right _ _

/-- **C2** (confirmed).  Against a store whose commands file exists and
reads as `content`: every matching command becomes a synthetic result with
`relevanceScore = 1.0`, and all of them are prepended before the lexically
scored results; with zero matching commands, `searchFacts` is exactly the
ordinary scored pipeline. -/
theorem matched_commands_prepended_with_score_one (fm : FM) (query : String)
    (options : SearchOptions) (content : String)
    (hex : fm.dirExists userCommandPath = Except.ok true)
    (hrd : fm.readFile userCommandPath = Except.ok content) :
    ((parseUserCommands content).filter (commandMatches (lowerStr query)) = [] →
      searchFacts fm query options = searchFactsInternal fm query options) ∧
    ((parseUserCommands content).filter (commandMatches (lowerStr query)) ≠ [] →
      ∃ normalFacts,
        searchFactsInternal fm query options = Except.ok normalFacts ∧
        searchFacts fm query options = Except.ok
          (((parseUserCommands content).filter
            (commandMatches (lowerStr query))).map commandToFact ++ normalFacts) ∧
        ∀ f ∈ ((parseUserCommands content).filter
            (commandMatches (lowerStr query))).map commandToFact,
          f.relevanceScore = 1) := by
  have hc := getUserCommands_eval fm query content hex hrd
  have h := searchFacts_characterization fm query options _ hc
  refine ⟨h.1, fun hne => ?_⟩
  obtain ⟨normal, h1, h2⟩ := h.2 hne
  refine ⟨normal, h1, h2, ?_⟩
  intro f hf
  simp only [List.mem_map] at hf
  obtain ⟨cmd, _, rfl⟩ := hf
  rfl

/-- Witness for C2 at a concrete store: the single parsed command `deploy`
matches the query `deploy` and is prepended with score 1. -/
theorem matched_commands_prepended_witness :
    ∃ normalFacts,
      searchFactsInternal c2FM "deploy" {} = Except.ok normalFacts ∧
      searchFacts c2FM "deploy" {} = Except.ok
        (((parseUserCommands c2Content).filter
          (commandMatches (lowerStr "deploy"))).map commandToFact ++ normalFacts) ∧
      ∀ f ∈ ((parseUserCommands c2Content).filter
          (commandMatches (lowerStr "deploy"))).map commandToFact,
        f.relevanceScore = 1 :=
  (matched_commands_prepended_with_score_one c2FM "deploy" {} c2Content rfl rfl).2
    (by with_unfolding_all decide)

/-- **C3 counterexample**.  Recording the spec's own example insight and then
searching its task text under default options returns nothing: the written
document carries no `title` header field, so its score is exactly the
word-overlap weight 0.4, below the default `minRelevance` 0.5.  The first
conjunct pins the written file, the second its score, the third the empty
default search result over the store holding exactly that document. -/
theorem record_then_default_search_misses :
    (recordInsight c3FM c3Insight c3Now).1.map WriteOp.path = [c3SolPath, knowledgePath] ∧
    calculateRelevance "implement login" c3Content (parseInsightMetadata c3Content) = 2/5 ∧
    searchFacts c3FM "implement login" {} = Except.ok [] := by
  refine ⟨?_, ?_, ?_⟩
  · with_unfolding_all decide
  · with_unfolding_all decide
  · with_unfolding_all decide

/-- **C3** (corrected).  The round trip holds once `minRelevance` is lowered
to 0.4: searching the task text then returns the just-written document — with
`relevanceScore = 0.4 ≥ 0.4` and category `technical`, as in the spec's
example. -/
theorem record_then_lowered_search_returns :
    searchFacts c3FM "implement login" { minRelevance := some (2/5) } =
      Except.ok [{ path := c3SolPath, title := "implementlogin_useJWT",
                   category := "technical", relevanceScore := 2/5,
                   summary := "No summary available", lastUpdated := "2024-01-15",
                   relatedDocs := [] }] := by
  with_unfolding_all decide

/-- **C4 counterexample**.  A storage backend whose directory existence check
fails makes `searchFacts` return the empty result — the failure is swallowed
by the outer catch, not surfaced as an error as the claim states. -/
theorem search_swallows_failed_existence_check :
    errFM.dirExists localDocsPath = Except.error "disk failure" ∧
    searchFacts errFM "query" {} = Except.ok [] :=
  ⟨rfl, rfl⟩

/-- **C4** (corrected).  `searchFacts` catches **every** storage failure
(returning an empty or partial result, never an error), while a failing write
inside `recordInsight` does propagate, wrapped. -/
theorem storage_failure_policy (fm : FM) (query : String) (options : SearchOptions)
    (insight : InsightRecord) (now e : String)
    (hw : fm.writeFile (pathJoin solutionsPath (generateInsightFilename insight))
        (formatInsightContent insight now) = Except.error e) :
    (∃ docs, searchFacts fm query options = Except.ok docs) ∧
    (recordInsight fm insight now).2 =
      Except.error ("Failed to record insight: " ++ e) := by
  refine ⟨searchFacts_isOk fm query options, ?_⟩
  unfold recordInsight
  simp only []
  rw [hw]

/-- Witness for C4 at the all-failing backend. -/
theorem storage_failure_policy_witness :
    (∃ docs, searchFacts errFM "query" {} = Except.ok docs) ∧
    (recordInsight errFM c4Insight "2024-01-01T00:00:00.000Z").2 =
      Except.error ("Failed to record insight: " ++ "disk failure") :=
  storage_failure_policy errFM "query" {} c4Insight "2024-01-01T00:00:00.000Z"
    "disk failure" rfl

/-- **C5 counterexample**.  On a document whose header (and only its header)
shares a token with the query, the code scores 0.4 while the claimed
body-only tokenization would score 0: the word-overlap signal tokenizes the
whole document text, headers included. -/
theorem word_overlap_covers_header_text :
    calculateRelevance "category" c5Doc (parseInsightMetadata c5Doc) = 2/5 ∧
    scoreWithBodyOverlap "category" c5Doc (parseInsightMetadata c5Doc) = 0 := by
  constructor
  · with_unfolding_all decide
  · with_unfolding_all decide

/-- **C5** (corrected).  The scorer equals the spec's four-signal formula
with the word overlap taken over the **whole document text** (header block
included) rather than the body. -/
theorem relevance_equals_full_text_overlap (query content : String)
    (metadata : List (String × String)) :
    calculateRelevance query content metadata =
      scoreWithFullTextOverlap query content metadata := by
  unfold calculateRelevance scoreWithFullTextOverlap wordSignal specWordOverlap
  simp [List.countP_eq_length_filter]

/-- **C6 counterexample**.  A document whose text carries a delimiter block
with zero parsable `key: value` lines yields an **empty** header — not the
`technical` default: its category is `undefined`, it is excluded from search
even with the relevance threshold at 0, and the context's category set
receives `undefined` rather than `technical`. -/
theorem empty_header_block_not_treated_as_technical :
    parseInsightMetadata c6Doc = [] ∧
    mdGet (parseInsightMetadata c6Doc) "category" = none ∧
    searchFactsInternal (singleDocFM c6Doc) "body" { minRelevance := some 0 } =
      Except.ok [] ∧
    getProjectContext (singleDocFM c6Doc) "2024-01-01T00:00:00.000Z" =
      Except.ok { currentPath := cwd, hasLocalDocs := true, factCount := 1,
                  categories := [none],
                  lastActivity := "2024-01-01T00:00:00.000Z" } := by
  refine ⟨?_, ?_, ?_, ?_⟩
  · with_unfolding_all decide
  · with_unfolding_all decide
  · with_unfolding_all decide
  · with_unfolding_all decide

/-- **C6** (corrected).  A document whose text has **no complete front-matter
delimiter block** is given the default header (`category technical`, empty
date, empty title), is eligible under the default category filter, never
fails the search scan, and contributes `technical` to the context's category
set. -/
theorem headerless_doc_treated_as_technical (content query now : String)
    (options : SearchOptions) (h : frontMatterBlock content = none) :
    parseInsightMetadata content =
      [("category", "technical"), ("created_date", ""), ("title", "")] ∧
    mdGet (parseInsightMetadata content) "category" = some "technical" ∧
    defaultCategories.contains "technical" = true ∧
    (∃ docs, searchFactsInternal (singleDocFM content) query options = Except.ok docs) ∧
    getProjectContext (singleDocFM content) now =
      Except.ok { currentPath := cwd, hasLocalDocs := true, factCount := 1,
                  categories := [some "technical"], lastActivity := now } := by
  have hmd : parseInsightMetadata content =
      [("category", "technical"), ("created_date", ""), ("title", "")] := by
    unfold parseInsightMetadata
    rw [h]
  refine ⟨hmd, by rw [hmd]; rfl, rfl, searchFactsInternal_isOk _ _ _, ?_⟩
  have h1 : (singleDocFM content).dirExists localDocsPath = Except.ok true := rfl
  have h2 : findInsightFiles (singleDocFM content) =
      Except.ok [pathJoin solutionsPath "doc.md"] := rfl
  have h3 : (singleDocFM content).readFile (pathJoin solutionsPath "doc.md") =
      Except.ok content := rfl
  unfold getProjectContext
  simp only [h1, h2]
  simp only [List.foldl, contextStep, h3, hmd]
  rfl

/-- Witness for C6 at a concrete headerless document. -/
theorem headerless_doc_witness :
    parseInsightMetadata "hello world" =
      [("category", "technical"), ("created_date", ""), ("title", "")] ∧
    mdGet (parseInsightMetadata "hello world") "category" = some "technical" ∧
    defaultCategories.contains "technical" = true ∧
    (∃ docs, searchFactsInternal (singleDocFM "hello world") "hello" {} = Except.ok docs) ∧
    getProjectContext (singleDocFM "hello world") "2024-03-03T00:00:00.000Z" =
      Except.ok { currentPath := cwd, hasLocalDocs := true, factCount := 1,
                  categories := [some "technical"],
                  lastActivity := "2024-03-03T00:00:00.000Z" } :=
  headerless_doc_treated_as_technical "hello world" "hello" "2024-03-03T00:00:00.000Z"
    {} rfl

/-- **C7 counterexample**.  Arguments missing the required `problem` field
make the schema parse — which sits **outside** the `try`/`catch` — throw
straight past `execute` instead of being reported as a `success := false`
envelope. -/
theorem invalid_args_escape_execute :
    howToSolveExecute okFM "2024-01-01T00:00:00.000Z"
      { problem := none, context := none, constraints := none, priority := none } =
      Except.error "ZodError: problem: Required" := rfl

/-- **C7** (corrected).  Once the schema parse succeeds, each of the three
tool operations always returns the uniform envelope (`Except.ok`) and every
internal failure is caught and reported through a `success := false`
envelope; only schema-validation failures escape. -/
theorem tools_return_envelope_after_valid_parse (fm : FM) (now : String)
    (a1 : HowToSolveRawArgs) (a2 : RecordInsightRawArgs) (a3 : InitRawArgs)
    (i1 : HowToSolveInput) (i2 : RecordInsightInput)
    (h1 : parseHowToSolve a1 = Except.ok i1)
    (h2 : parseRecordInsight a2 = Except.ok i2) :
    (∃ env, howToSolveExecute fm now a1 = Except.ok env) ∧
    (∃ env, recordInsightExecute fm now a2 = Except.ok env) ∧
    (∃ env, initFactsSystemExecute fm now a3 = Except.ok env) ∧
    (∀ e, getProjectContext fm now = Except.error e →
      howToSolveExecute fm now a1 = Except.ok
        { success := false, message := "Failed to analyze problem: " ++ e,
          data := none, timestamp := now }) := by
  refine ⟨?_, ?_, ?_, ?_⟩
  · unfold howToSolveExecute
    simp only [h1]
    exact ⟨_, rfl⟩
  · unfold recordInsightExecute
    simp only [h2]
    exact ⟨_, rfl⟩
  · exact ⟨_, rfl⟩
  · intro e he
    unfold howToSolveExecute
    simp only [h1, he]

/-- Witness for C7 at concrete valid arguments. -/
theorem tools_return_envelope_witness :
    (∃ env, howToSolveExecute okFM "2024-01-01T00:00:00.000Z" c7HowArgs = Except.ok env) ∧
    (∃ env, recordInsightExecute okFM "2024-01-01T00:00:00.000Z" c7RecArgs = Except.ok env) ∧
    (∃ env, initFactsSystemExecute okFM "2024-01-01T00:00:00.000Z" {} = Except.ok env) := by
  have h := tools_return_envelope_after_valid_parse okFM "2024-01-01T00:00:00.000Z"
    c7HowArgs c7RecArgs {}
    { problem := "fix the bug", context := none, constraints := none, priority := "medium" }
    { task := "t", solution := "s", reasoning := "r", evidence := none,
      category := "technical", confidence := "medium", tags := none,
      related_files := none }
    rfl rfl
  exact ⟨h.1, h.2.1, h.2.2.1⟩

/-- **C8** (confirmed).  A successful `recordInsight` performs exactly one
write under the `solutions` directory — the formatted insight document at the
derived filename — and the filename is the sanitized 30-character prefixes of
`task` and `solution` joined by an underscore with `.md` appended. -/
theorem record_writes_exactly_one_solution_file (fm : FM) (insight : InsightRecord)
    (now : String) (h : (recordInsight fm insight now).2 = Except.ok ()) :
    (recordInsight fm insight now).1.filter
        (fun w => startsWithB w.path (solutionsPath ++ "/")) =
      [{ path := pathJoin solutionsPath (generateInsightFilename insight),
         content := formatInsightContent insight now }] ∧
    generateInsightFilename insight =
      sanitizedPrefix insight.task ++ "_" ++ sanitizedPrefix insight.solution ++ ".md" := by
  have hpred : ∀ fn : String, startsWithB (pathJoin solutionsPath fn)
      (solutionsPath ++ "/") = true := by
    intro fn
    unfold startsWithB pathJoin
    rw [List.isPrefixOf_iff_prefix, String.data_append]
    exact List.prefix_append _ _
  constructor
  · unfold recordInsight at h ⊢
    simp only [] at h ⊢
    cases hw : fm.writeFile (pathJoin solutionsPath (generateInsightFilename insight))
        (formatInsightContent insight now) with
    | error e =>
      rw [hw] at h
      simp at h
    | ok u =>
      simp only []
      have htail : (updateKnowledge fm now).filter
          (fun w => startsWithB w.path (solutionsPath ++ "/")) = [] := by
        rw [List.filter_eq_nil_iff]
        intro w hmem
        rw [updateKnowledge_paths fm now w hmem]
        decide
      simp [List.filter_cons, hpred, htail]
  · rfl

/-- Witness for C8 at a concrete insight and an all-succeeding backend. -/
theorem record_writes_witness :
    (recordInsight okFM c8Insight "2024-02-02T00:00:00.000Z").1.filter
        (fun w => startsWithB w.path (solutionsPath ++ "/")) =
      [{ path := pathJoin solutionsPath (generateInsightFilename c8Insight),
         content := formatInsightContent c8Insight "2024-02-02T00:00:00.000Z" }] ∧
    generateInsightFilename c8Insight =
      sanitizedPrefix c8Insight.task ++ "_" ++ sanitizedPrefix c8Insight.solution ++ ".md" :=
  record_writes_exactly_one_solution_file okFM c8Insight "2024-02-02T00:00:00.000Z" rfl

/-- **C9 counterexample**.  The section `## foo` has a name but no
description, and it is **discarded** — the claim says a section with a name
but no description is kept. -/
theorem named_section_without_description_discarded :
    splitCmdSections "## foo" = ["foo"] ∧
    trimB ((jsSplitOn "foo" '\n').headD "") = "foo" ∧
    sectionToCommand "foo" = none ∧
    parseUserCommands "## foo" = [] := by
  with_unfolding_all decide

/-- **C9** (corrected).  A section is kept if and only if it has **both** a
name and a description (where the first unlabeled non-empty line becomes the
description when no explicit description field is present); a section lacking
either one is discarded. -/
theorem section_kept_iff_name_and_description (content section' : String) :
    parseUserCommands content = (splitCmdSections content).filterMap sectionToCommand ∧
    ((sectionToCommand section').isSome ↔
      trimB ((jsSplitOn section' '\n').headD "") ≠ "" ∧
      (((jsSplitOn section' '\n').drop 1).foldl scanSectionLine
        { description := "", relatedDocs := [], lastUpdated := "" }).description ≠ "") := by
  refine ⟨rfl, ?_⟩
  unfold sectionToCommand
  simp only []
  split
  · rename_i hcond
    simpa using hcond
  · rename_i hcond
    simp only [Option.isSome_none, Bool.false_eq_true, false_iff]
    intro hcontra
    exact hcond hcontra

/-- **C10** (confirmed).  For a whitespace-only (or empty) query, splitting
on whitespace yields an empty token, the empty string is a substring of every
name and description, so every parsed command matches and all of them are
returned at the front of `searchFacts`, each with `relevanceScore = 1.0`. -/
theorem whitespace_query_matches_every_command (fm : FM) (query content : String)
    (options : SearchOptions)
    (hex : fm.dirExists userCommandPath = Except.ok true)
    (hrd : fm.readFile userCommandPath = Except.ok content)
    (hws : ∀ c ∈ query.data, c.isWhitespace = true) :
    getUserCommands fm query = Except.ok (parseUserCommands content) ∧
    (parseUserCommands content = [] →
      searchFacts fm query options = searchFactsInternal fm query options) ∧
    (parseUserCommands content ≠ [] →
      ∃ normalFacts, searchFacts fm query options = Except.ok
          ((parseUserCommands content).map commandToFact ++ normalFacts) ∧
        ∀ f ∈ (parseUserCommands content).map commandToFact, f.relevanceScore = 1) := by
  have hfilter : (parseUserCommands content).filter (commandMatches (lowerStr query)) =
      parseUserCommands content :=
    List.filter_eq_self.mpr (fun cmd _ => commandMatches_of_ws query hws cmd)
  have hc := getUserCommands_eval fm query content hex hrd
  rw [hfilter] at hc
  have h := searchFacts_characterization fm query options _ hc
  refine ⟨hc, h.1, fun hne => ?_⟩
  obtain ⟨normal, _, h2⟩ := h.2 hne
  refine ⟨normal, h2, ?_⟩
  intro f hf
  simp only [List.mem_map] at hf
  obtain ⟨cmd, _, rfl⟩ := hf
  rfl

/-- Witness for C10 at a concrete store and the one-space query. -/
theorem whitespace_query_witness :
    getUserCommands c10FM " " = Except.ok (parseUserCommands c10Content) ∧
    (∃ normalFacts, searchFacts c10FM " " {} = Except.ok
        ((parseUserCommands c10Content).map commandToFact ++ normalFacts) ∧
      ∀ f ∈ (parseUserCommands c10Content).map commandToFact, f.relevanceScore = 1) := by
  have h := whitespace_query_matches_every_command c10FM " " c10Content {} rfl rfl
    (by decide)
  exact ⟨h.1, h.2.2 (by with_unfolding_all decide)⟩

end ProjFacts
